import Mathlib

/-!
Verification of the knot-contact-api mutation-and-broadcast pipeline.

The development shallowly embeds the Django backend of the repository
(`core/models.py`, `core/serializers.py`, `core/views.py`): the `Contact`
and `ContactVersion` models, the `ContactSerializer.validate` uniqueness
check, and the view-layer mutation operations `perform_create`,
`perform_update`, `perform_destroy`, the `history` action and the
`external_update` endpoint.

Modelling decisions, stated once here:
* Database state is a `DB` record holding the `Contact` rows and the
  `ContactVersion` rows in table (insertion / primary-key) order, together
  with the next auto-increment primary keys.
* Timestamps are naturals; each request carries its clock value `now`
  (`auto_now_add`, `auto_now` and the `timezone.now` default of
  `edited_at` all read it).
* A request body is an association list of string fields; JSON objects
  carry each key at most once, so lookups take the first occurrence.
* Each mutation returns a `MutResult`: the response (`Except`), the
  post-request database (unchanged on failure: every failing path raises
  before or inside the transaction, which rolls back), and the ordered
  trace of externally visible actions — the transaction commit and the
  Channels group_send publish. In the viewset methods the `with
  transaction.atomic():` block closes before `_broadcast` runs, so the
  publish follows the commit; in `external_update` the decorator
  `@transaction.atomic` wraps the whole view body, so its group_send runs
  inside the transaction, before the commit.
* `Contact.objects.get` raising `Contact.DoesNotExist` is embedded as the
  `notFound` error; the unique index on `email` raising `IntegrityError`
  inside the `@transaction.atomic` body of `external_update` is embedded
  as the `integrityError` error with the transaction rolled back.
* The artificial `time.sleep(20)` in `perform_create` has no observable
  effect on state and is not modelled.
-/

namespace KnotContacts

/-- `core/models.py` `Contact`: row of the contacts table. -/
structure Contact where
  id : Nat
  first_name : String
  last_name : String
  email : String
  phone : String
  created_at : Nat
  updated_at : Nat
deriving DecidableEq

/-- `core/models.py` `ContactVersion`: immutable snapshot row; `vid` is the
auto-increment primary key, `contact` the foreign key to the owning
contact (`on_delete=CASCADE`). -/
structure ContactVersion where
  vid : Nat
  contact : Nat
  first_name : String
  last_name : String
  email : String
  phone : String
  edited_at : Nat
  edited_reason : String
deriving DecidableEq

/-- The SQLite database: both tables in insertion order plus the next
auto-increment primary keys. -/
structure DB where
  contacts : List Contact
  versions : List ContactVersion
  nextContactId : Nat
  nextVersionId : Nat
deriving DecidableEq

/-- The transient change events broadcast on the Channels group
`contacts` (`_broadcast` in `core/views.py`). -/
inductive ChangeEvent where
  | created (c : Contact)
  | updated (c : Contact)
  | deleted (id : Nat)
deriving DecidableEq

/-- The error taxonomy surfaced to callers: DRF serializer validation
errors (a field-to-message detail list), the object-missing error
(`Http404` / `Contact.DoesNotExist`), and the database unique-index
violation. -/
inductive ApiError where
  | validationError (detail : List (String × String))
  | notFound
  | integrityError
deriving DecidableEq

/-- Externally visible steps of one request, in order: the commit of the
atomic store write, and a publish on the broadcast channel. -/
inductive Action where
  | commit
  | publish (e : ChangeEvent)
deriving DecidableEq

/-- Outcome of one mutation request: response, post-request database and
the ordered action trace. -/
structure MutResult (α : Type) where
  res : Except ApiError α
  db : DB
  trace : List Action

/-- The writable model fields of `Contact` (the key set filtered on in
`external_update`, and the serializer's writable fields). -/
def fourFields : List String := ["first_name", "last_name", "email", "phone"]

/-- First binding of key `k` in a request body. -/
def lookupField (body : List (String × String)) (k : String) : Option String :=
  (body.find? (fun kv => kv.1 == k)).map (fun kv => kv.2)

/-- Split a character list on a separator (groups between separators). -/
def splitChar (sep : Char) : List Char → List (List Char)
  | [] => [[]]
  | x :: xs =>
    match splitChar sep xs with
    | [] => [[]]
    | g :: gs => if x = sep then [] :: g :: gs else (x :: g) :: gs

/-- Modelled from the spec: DRF `EmailField` rejects a "malformed email"
(framework field validation, not part of the repository's own files).
The embedding requires one `@`, a non-empty local part and a domain of at
least two non-empty dot-separated labels. -/
def isValidEmail (s : String) : Bool :=
  match splitChar '@' s.toList with
  | [loc, dom] =>
    let labels := splitChar '.' dom
    !loc.isEmpty && labels.length ≥ 2 && labels.all (fun l => !l.isEmpty)
  | _ => false

/-- Modelled from the spec: DRF field-level validation of one writable
field (required unless the update is a partial `PATCH`, must not be
blank, email must be well formed); returns the field's error entry. -/
def fieldCheck (body : List (String × String)) (patch : Bool) (k : String) :
    Option (String × String) :=
  match lookupField body k with
  | none => if patch then none else some (k, "This field is required.")
  | some v =>
    if v = "" then some (k, "This field may not be blank.")
    else if k == "email" && !isValidEmail v then
      some (k, "Enter a valid email address.")
    else none

/-- Modelled from the spec: the serializer's field-level error detail,
collected over the writable fields before object-level validation runs. -/
def fieldErrors (body : List (String × String)) (patch : Bool) :
    List (String × String) :=
  fourFields.filterMap (fieldCheck body patch)

/-- `core/serializers.py` `ContactSerializer.validate`: the email
uniqueness check. `attrs.get("email")` is `None` when the key is absent;
the Python guard `if email and qs.exists()` also skips the empty string;
on an update the queryset excludes the instance's own primary key. -/
def serializerValidate (db : DB) (instPk : Option Nat)
    (attrs : List (String × String)) : Option (List (String × String)) :=
  match lookupField attrs "email" with
  | none => none
  | some e =>
    if e = "" then none
    else
      let qs0 := db.contacts.filter (fun c => c.email == e)
      let qs : List Contact :=
        match instPk with
        | some pk => qs0.filter (fun c => !(c.id == pk))
        | none => qs0
      if qs.isEmpty then none
      else some [("email", "Email must be unique.")]

/-- `serializer.is_valid`: field-level validation first; only when it
passes does the object-level `validate` run. -/
def runValidation (db : DB) (instPk : Option Nat)
    (body : List (String × String)) (patch : Bool) : Option ApiError :=
  match fieldErrors body patch with
  | [] => (serializerValidate db instPk body).map ApiError.validationError
  | es => some (ApiError.validationError es)

/-- Write the supplied fields onto a contact row; absent keys keep their
value, and the save refreshes `updated_at` (`auto_now`). A full `PUT`
carries all four keys, so the same merge covers both update modes. -/
def applyFields (c : Contact) (body : List (String × String)) (now : Nat) :
    Contact :=
  { c with
    first_name := (lookupField body "first_name").getD c.first_name
    last_name := (lookupField body "last_name").getD c.last_name
    email := (lookupField body "email").getD c.email
    phone := (lookupField body "phone").getD c.phone
    updated_at := now }

/-- `ContactVersion.objects.create(contact=contact, first_name=contact.first_name, ...)`:
the snapshot row copies the saved contact's field values. -/
def mkVersion (vid : Nat) (c : Contact) (now : Nat) (reason : String) :
    ContactVersion :=
  ⟨vid, c.id, c.first_name, c.last_name, c.email, c.phone, now, reason⟩

/-- Replace the row with the given primary key (an UPDATE keeps table
order). -/
def saveRow (l : List Contact) (id : Nat) (c : Contact) : List Contact :=
  l.map (fun x => if x.id == id then c else x)

/-- `ContactViewSet.perform_create` (plus the serializer run that DRF's
`create` does first): validate; inside one transaction insert the contact
and append its `"created"` version; broadcast after the commit. -/
def createContact (db : DB) (now : Nat) (body : List (String × String)) :
    MutResult Contact :=
  match runValidation db none body false with
  | some e => ⟨Except.error e, db, []⟩
  | none =>
    let c : Contact :=
      { id := db.nextContactId
        first_name := (lookupField body "first_name").getD ""
        last_name := (lookupField body "last_name").getD ""
        email := (lookupField body "email").getD ""
        phone := (lookupField body "phone").getD ""
        created_at := now
        updated_at := now }
    let db' : DB :=
      { contacts := db.contacts ++ [c]
        versions := db.versions ++ [mkVersion db.nextVersionId c now "created"]
        nextContactId := db.nextContactId + 1
        nextVersionId := db.nextVersionId + 1 }
    ⟨Except.ok c, db', [Action.commit, Action.publish (ChangeEvent.created c)]⟩

/-- `ContactViewSet.perform_update` (plus DRF's `get_object` and the
serializer run): 404 on a missing id; validate against the instance;
inside one transaction save the merged row and append its `"updated"`
version; broadcast after the commit. `patch` selects PATCH (partial)
versus PUT (full) semantics. -/
def updateContact (db : DB) (now : Nat) (id : Nat)
    (body : List (String × String)) (patch : Bool) : MutResult Contact :=
  match db.contacts.find? (fun c => c.id == id) with
  | none => ⟨Except.error ApiError.notFound, db, []⟩
  | some c0 =>
    match runValidation db (some id) body patch with
    | some e => ⟨Except.error e, db, []⟩
    | none =>
      let c := applyFields c0 body now
      let db' : DB :=
        { contacts := saveRow db.contacts id c
          versions := db.versions ++ [mkVersion db.nextVersionId c now "updated"]
          nextContactId := db.nextContactId
          nextVersionId := db.nextVersionId + 1 }
      ⟨Except.ok c, db', [Action.commit, Action.publish (ChangeEvent.updated c)]⟩

/-- `ContactViewSet.perform_destroy` (plus DRF's `get_object`): 404 on a
missing id; delete the row — the `on_delete=CASCADE` foreign key removes
every version of the contact — then broadcast the deleted id. -/
def deleteContact (db : DB) (id : Nat) : MutResult Nat :=
  match db.contacts.find? (fun c => c.id == id) with
  | none => ⟨Except.error ApiError.notFound, db, []⟩
  | some _ =>
    ⟨Except.ok id,
      { contacts := db.contacts.filter (fun c => !(c.id == id))
        versions := db.versions.filter (fun v => !(v.contact == id))
        nextContactId := db.nextContactId
        nextVersionId := db.nextVersionId },
      [Action.commit, Action.publish (ChangeEvent.deleted id)]⟩

/-- `external_update` in `core/views.py`: under `@transaction.atomic`,
fetch the contact (`DoesNotExist` when absent), set exactly the body keys
among the four writable fields, save (refreshing `updated_at`; the unique
index on `email` aborts and rolls back on a collision with a different
contact), append the `"external_update"` version, then broadcast a
`contact.updated` event. No serializer runs on this path, and — unlike
the viewset methods, whose `with transaction.atomic():` block ends before
`_broadcast` — the decorator keeps the whole body inside the
transaction, so the group_send publish happens before the commit: the
success trace is publish first, commit second. -/
def external_update (db : DB) (now : Nat) (cid : Nat)
    (body : List (String × String)) : MutResult Contact :=
  match db.contacts.find? (fun c => c.id == cid) with
  | none => ⟨Except.error ApiError.notFound, db, []⟩
  | some c0 =>
    let fields := body.filter (fun kv => fourFields.contains kv.1)
    let c := applyFields c0 fields now
    match db.contacts.any (fun x => x.email == c.email && !(x.id == cid)) with
    | true => ⟨Except.error ApiError.integrityError, db, []⟩
    | false =>
      let db' : DB :=
        { contacts := saveRow db.contacts cid c
          versions :=
            db.versions ++ [mkVersion db.nextVersionId c now "external_update"]
          nextContactId := db.nextContactId
          nextVersionId := db.nextVersionId + 1 }
      ⟨Except.ok c, db', [Action.publish (ChangeEvent.updated c), Action.commit]⟩

/-- The comparison `ORDER BY edited_at DESC` sorts by: later timestamps
first. -/
def vOrder (a b : ContactVersion) : Prop := b.edited_at ≤ a.edited_at

instance : DecidableRel vOrder := fun a b =>
  inferInstanceAs (Decidable (b.edited_at ≤ a.edited_at))

instance : IsTotal ContactVersion vOrder :=
  ⟨fun a b => Nat.le_total b.edited_at a.edited_at⟩

instance : IsTrans ContactVersion vOrder :=
  ⟨fun _ _ _ h1 h2 => Nat.le_trans h2 h1⟩

/-- `ContactViewSet.history`:
`ContactVersion.objects.filter(contact_id=pk).order_by("-edited_at")`.
The explicit `order_by` replaces the model's default
`["-edited_at", "-id"]` ordering, so the SQL orders by the timestamp
alone; the embedding renders it as a stable sort over table order (rows
with equal keys come back in table-scan order). -/
def history (db : DB) (pk : Nat) : List ContactVersion :=
  List.insertionSort vOrder (db.versions.filter (fun v => v.contact == pk))

/-- One API mutation request (the entry points that write). -/
inductive Op where
  | create (now : Nat) (body : List (String × String))
  | update (now : Nat) (id : Nat) (body : List (String × String)) (patch : Bool)
  | destroy (id : Nat)
  | external (now : Nat) (cid : Nat) (body : List (String × String))

/-- The database after one request (responses and events discarded). -/
def applyOp (db : DB) : Op → DB
  | Op.create now body => (createContact db now body).db
  | Op.update now id body patch => (updateContact db now id body patch).db
  | Op.destroy id => (deleteContact db id).db
  | Op.external now cid body => (external_update db now cid body).db

/-- The freshly migrated database: both tables empty, primary keys from 1. -/
def db0 : DB := ⟨[], [], 1, 1⟩

/-- The database reached by a sequence of requests from the empty state. -/
def runOps (ops : List Op) : DB := ops.foldl applyOp db0

/-- Two contact rows are compatible: distinct primary keys and distinct
emails (the unique index). -/
def RC (a b : Contact) : Prop := a.id ≠ b.id ∧ a.email ≠ b.email

instance : DecidableRel RC := fun a b =>
  inferInstanceAs (Decidable (a.id ≠ b.id ∧ a.email ≠ b.email))

/-- Database well-formedness: pairwise distinct primary keys and emails,
and every primary key below the auto-increment counter. -/
def Inv (db : DB) : Prop :=
  db.contacts.Pairwise RC ∧ ∀ c ∈ db.contacts, c.id < db.nextContactId

instance (db : DB) : Decidable (Inv db) :=
  inferInstanceAs (Decidable (_ ∧ _))

/-! ### Concrete fixtures (used by witnesses and counterexamples) -/

/-- The spec's worked example request body. -/
def adaBody : List (String × String) :=
  [("first_name", "Ada"), ("last_name", "Lovelace"),
   ("email", "ada@example.com"), ("phone", "+1-555-1000")]

/-- The contact row the worked example creates at time 0. -/
def ada1 : Contact :=
  ⟨1, "Ada", "Lovelace", "ada@example.com", "+1-555-1000", 0, 0⟩

/-- A two-contact database with distinct emails. -/
def dbPair : DB :=
  ⟨[⟨1, "A", "B", "a@x.co", "1", 0, 0⟩, ⟨2, "C", "D", "b@x.co", "2", 0, 0⟩],
   [], 3, 1⟩

/-- A full-update body for contact 2 that reuses contact 1's email. -/
def clashBody : List (String × String) :=
  [("first_name", "C"), ("last_name", "D"),
   ("email", "a@x.co"), ("phone", "2")]

/-- The database after the worked example create. -/
def dbAda : DB := (createContact db0 0 adaBody).db

/-- A request body carrying one writable field and one foreign key. -/
def exBody : List (String × String) :=
  [("phone", "+1-555-2000"), ("junk", "zzz")]

/-- The worked example contact after an external update of its phone at
time 7. -/
def adaExt : Contact :=
  ⟨1, "Ada", "Lovelace", "ada@example.com", "+1-555-2000", 0, 7⟩

/-- A reachable state whose contact 1 has two versions with equal
timestamps: one create at time 0 and two partial updates at time 5. -/
def dbTie : DB :=
  runOps [Op.create 0 adaBody,
          Op.update 5 1 [("phone", "+1-555-2000")] true,
          Op.update 5 1 [("phone", "+1-555-3000")] true]

/-! ### Helper lemmas -/

theorem find?_id_mem {l : List Contact} {id : Nat} {c0 : Contact}
    (h : l.find? (fun c => c.id == id) = some c0) : c0 ∈ l :=
  List.mem_of_find?_eq_some h

theorem find?_id_eq {l : List Contact} {id : Nat} {c0 : Contact}
    (h : l.find? (fun c => c.id == id) = some c0) : c0.id = id := by
  have := List.find?_some h
  simpa using this

theorem fieldErrors_nil_iff {body : List (String × String)} {patch : Bool} :
    fieldErrors body patch = [] ↔
      ∀ k ∈ fourFields, fieldCheck body patch k = none := by
  simp [fieldErrors, List.filterMap_eq_nil_iff]

theorem email_nonblank_of_fieldErrors {body : List (String × String)}
    {patch : Bool} {v : String} (h : fieldErrors body patch = [])
    (hl : lookupField body "email" = some v) : v ≠ "" := by
  have he : fieldCheck body patch "email" = none :=
    (fieldErrors_nil_iff.mp h) "email" (by simp [fourFields])
  intro hv
  subst hv
  simp [fieldCheck, hl] at he

theorem email_of_fieldErrors_nil {body : List (String × String)}
    (h : fieldErrors body false = []) :
    ∃ v, lookupField body "email" = some v ∧ v ≠ "" := by
  have he : fieldCheck body false "email" = none :=
    (fieldErrors_nil_iff.mp h) "email" (by simp [fourFields])
  cases hl : lookupField body "email" with
  | none => simp [fieldCheck, hl] at he
  | some v =>
    exact ⟨v, rfl, email_nonblank_of_fieldErrors h hl⟩

theorem serializerValidate_cases (db : DB) (instPk : Option Nat)
    (attrs : List (String × String)) :
    serializerValidate db instPk attrs = none ∨
      serializerValidate db instPk attrs =
        some [("email", "Email must be unique.")] := by
  cases hl : lookupField attrs "email" with
  | none => exact Or.inl (by simp [serializerValidate, hl])
  | some e =>
    by_cases he : e = ""
    · exact Or.inl (by simp [serializerValidate, hl, he])
    · simp only [serializerValidate, hl, if_neg he]
      split
      · exact Or.inl rfl
      · exact Or.inr rfl

theorem serializerValidate_none_create {db : DB}
    {attrs : List (String × String)} {e : String}
    (h : serializerValidate db none attrs = none)
    (hl : lookupField attrs "email" = some e) (he : e ≠ "") :
    ∀ c ∈ db.contacts, c.email ≠ e := by
  simp only [serializerValidate, hl, if_neg he] at h
  intro c hc hce
  have hmem : c ∈ db.contacts.filter (fun c => c.email == e) := by
    simp [List.mem_filter, hc, hce]
  by_cases hq : (db.contacts.filter (fun c => c.email == e)).isEmpty
  · rw [List.isEmpty_iff] at hq
    rw [hq] at hmem
    cases hmem
  · rw [if_neg hq] at h
    cases h

theorem serializerValidate_some_create {db : DB}
    {attrs : List (String × String)} {e : String} {c : Contact}
    (hl : lookupField attrs "email" = some e) (he : e ≠ "")
    (hc : c ∈ db.contacts) (hce : c.email = e) :
    serializerValidate db none attrs =
      some [("email", "Email must be unique.")] := by
  simp only [serializerValidate, hl, if_neg he]
  have hmem : c ∈ db.contacts.filter (fun c => c.email == e) := by
    simp [List.mem_filter, hc, hce]
  have hq : (db.contacts.filter (fun c => c.email == e)).isEmpty = false := by
    cases hq : (db.contacts.filter (fun c => c.email == e)).isEmpty
    · rfl
    · rw [List.isEmpty_iff] at hq
      rw [hq] at hmem
      cases hmem
  rw [hq]
  rfl

theorem serializerValidate_none_update {db : DB}
    {attrs : List (String × String)} {e : String} {pk : Nat}
    (h : serializerValidate db (some pk) attrs = none)
    (hl : lookupField attrs "email" = some e) (he : e ≠ "") :
    ∀ c ∈ db.contacts, c.email = e → c.id = pk := by
  simp only [serializerValidate, hl, if_neg he] at h
  intro c hc hce
  by_contra hne
  have hmem : c ∈ (db.contacts.filter (fun c => c.email == e)).filter
      (fun c => !(c.id == pk)) := by
    simp [List.mem_filter, hc, hce, hne]
  by_cases hq : ((db.contacts.filter (fun c => c.email == e)).filter
      (fun c => !(c.id == pk))).isEmpty
  · rw [List.isEmpty_iff] at hq
    rw [hq] at hmem
    cases hmem
  · rw [if_neg hq] at h
    cases h

theorem serializerValidate_some_update {db : DB}
    {attrs : List (String × String)} {e : String} {pk : Nat} {c : Contact}
    (hl : lookupField attrs "email" = some e) (he : e ≠ "")
    (hc : c ∈ db.contacts) (hce : c.email = e) (hne : c.id ≠ pk) :
    serializerValidate db (some pk) attrs =
      some [("email", "Email must be unique.")] := by
  simp only [serializerValidate, hl, if_neg he]
  have hmem : c ∈ (db.contacts.filter (fun c => c.email == e)).filter
      (fun c => !(c.id == pk)) := by
    simp [List.mem_filter, hc, hce, hne]
  have hq : ((db.contacts.filter (fun c => c.email == e)).filter
      (fun c => !(c.id == pk))).isEmpty = false := by
    cases hq : ((db.contacts.filter (fun c => c.email == e)).filter
        (fun c => !(c.id == pk))).isEmpty
    · rfl
    · rw [List.isEmpty_iff] at hq
      rw [hq] at hmem
      cases hmem
  rw [hq]
  rfl

theorem runValidation_none_iff {db : DB} {instPk : Option Nat}
    {body : List (String × String)} {patch : Bool} :
    runValidation db instPk body patch = none ↔
      fieldErrors body patch = [] ∧ serializerValidate db instPk body = none := by
  unfold runValidation
  cases hf : fieldErrors body patch with
  | nil =>
    cases hs : serializerValidate db instPk body <;> simp [hs]
  | cons a l => simp

end KnotContacts


namespace KnotContacts

/-! ### Shape lemmas: each operation's success and failure forms -/

theorem createContact_ok_elim {db : DB} {now : Nat}
    {body : List (String × String)} {c : Contact}
    (h : (createContact db now body).res = Except.ok c) :
    runValidation db none body false = none ∧
    createContact db now body =
      ⟨Except.ok c,
       ⟨db.contacts ++ [c],
        db.versions ++ [mkVersion db.nextVersionId c now "created"],
        db.nextContactId + 1, db.nextVersionId + 1⟩,
       [Action.commit, Action.publish (ChangeEvent.created c)]⟩ := by
  cases hv : runValidation db none body false with
  | some e => simp [createContact, hv] at h
  | none =>
    refine ⟨rfl, ?_⟩
    simp only [createContact, hv] at h ⊢
    simp only [MutResult.mk.injEq] at h ⊢
    injection h with h
    subst h
    exact ⟨rfl, rfl, rfl⟩

theorem createContact_error_elim {db : DB} {now : Nat}
    {body : List (String × String)} {e : ApiError}
    (h : (createContact db now body).res = Except.error e) :
    runValidation db none body false = some e ∧
    createContact db now body = ⟨Except.error e, db, []⟩ := by
  cases hv : runValidation db none body false with
  | some e' =>
    have he : e' = e := by simpa [createContact, hv] using h
    subst he
    exact ⟨rfl, by simp [createContact, hv]⟩
  | none => simp [createContact, hv] at h

theorem updateContact_ok_elim {db : DB} {now id : Nat}
    {body : List (String × String)} {patch : Bool} {c : Contact}
    (h : (updateContact db now id body patch).res = Except.ok c) :
    ∃ c0, db.contacts.find? (fun x => x.id == id) = some c0 ∧
      runValidation db (some id) body patch = none ∧
      c = applyFields c0 body now ∧
      updateContact db now id body patch =
        ⟨Except.ok c,
         ⟨saveRow db.contacts id c,
          db.versions ++ [mkVersion db.nextVersionId c now "updated"],
          db.nextContactId, db.nextVersionId + 1⟩,
         [Action.commit, Action.publish (ChangeEvent.updated c)]⟩ := by
  cases hf : db.contacts.find? (fun x => x.id == id) with
  | none => simp [updateContact, hf] at h
  | some c0 =>
    cases hv : runValidation db (some id) body patch with
    | some e => simp [updateContact, hf, hv] at h
    | none =>
      refine ⟨c0, rfl, rfl, ?_, ?_⟩
      · have := h
        simp only [updateContact, hf, hv] at this
        injection this with this
        exact this.symm
      · simp only [updateContact, hf, hv] at h ⊢
        injection h with h
        subst h
        rfl

theorem updateContact_error_elim {db : DB} {now id : Nat}
    {body : List (String × String)} {patch : Bool} {e : ApiError}
    (h : (updateContact db now id body patch).res = Except.error e) :
    updateContact db now id body patch = ⟨Except.error e, db, []⟩ := by
  cases hf : db.contacts.find? (fun x => x.id == id) with
  | none =>
    have he : ApiError.notFound = e := by
      simpa [updateContact, hf] using h
    subst he
    simp [updateContact, hf]
  | some c0 =>
    cases hv : runValidation db (some id) body patch with
    | some e' =>
      have he : e' = e := by simpa [updateContact, hf, hv] using h
      subst he
      simp [updateContact, hf, hv]
    | none => simp [updateContact, hf, hv] at h

theorem deleteContact_ok_elim {db : DB} {id r : Nat}
    (h : (deleteContact db id).res = Except.ok r) :
    ∃ c0, db.contacts.find? (fun x => x.id == id) = some c0 ∧ r = id ∧
      deleteContact db id =
        ⟨Except.ok id,
         ⟨db.contacts.filter (fun c => !(c.id == id)),
          db.versions.filter (fun v => !(v.contact == id)),
          db.nextContactId, db.nextVersionId⟩,
         [Action.commit, Action.publish (ChangeEvent.deleted id)]⟩ := by
  cases hf : db.contacts.find? (fun x => x.id == id) with
  | none => simp [deleteContact, hf] at h
  | some c0 =>
    have hr : id = r := by simpa [deleteContact, hf] using h
    subst hr
    exact ⟨c0, rfl, rfl, by simp [deleteContact, hf]⟩

theorem deleteContact_error_elim {db : DB} {id : Nat} {e : ApiError}
    (h : (deleteContact db id).res = Except.error e) :
    db.contacts.find? (fun x => x.id == id) = none ∧ e = ApiError.notFound ∧
      deleteContact db id = ⟨Except.error ApiError.notFound, db, []⟩ := by
  cases hf : db.contacts.find? (fun x => x.id == id) with
  | none =>
    have he : ApiError.notFound = e := by simpa [deleteContact, hf] using h
    subst he
    exact ⟨rfl, rfl, by simp [deleteContact, hf]⟩
  | some c0 => simp [deleteContact, hf] at h

theorem external_update_ok_elim {db : DB} {now cid : Nat}
    {body : List (String × String)} {c : Contact}
    (h : (external_update db now cid body).res = Except.ok c) :
    ∃ c0, db.contacts.find? (fun x => x.id == cid) = some c0 ∧
      c = applyFields c0 (body.filter (fun kv => fourFields.contains kv.1)) now ∧
      db.contacts.any (fun x => x.email == c.email && !(x.id == cid)) = false ∧
      external_update db now cid body =
        ⟨Except.ok c,
         ⟨saveRow db.contacts cid c,
          db.versions ++ [mkVersion db.nextVersionId c now "external_update"],
          db.nextContactId, db.nextVersionId + 1⟩,
         [Action.publish (ChangeEvent.updated c), Action.commit]⟩ := by
  cases hf : db.contacts.find? (fun x => x.id == cid) with
  | none => simp [external_update, hf] at h
  | some c0 =>
    cases hg : db.contacts.any
        (fun x => x.email ==
          (applyFields c0 (body.filter (fun kv => fourFields.contains kv.1)) now).email
          && !(x.id == cid)) with
    | true =>
      simp only [external_update, hf, hg] at h
      exact Except.noConfusion h
    | false =>
      refine ⟨c0, rfl, ?_, ?_, ?_⟩
      · have hx := h
        simp only [external_update, hf, hg] at hx
        injection hx with hx
        exact hx.symm
      · have hx := h
        simp only [external_update, hf, hg] at hx
        injection hx with hx
        subst hx
        exact hg
      · simp only [external_update, hf, hg] at h ⊢
        injection h with h
        subst h
        rfl

theorem external_update_error_elim {db : DB} {now cid : Nat}
    {body : List (String × String)} {e : ApiError}
    (h : (external_update db now cid body).res = Except.error e) :
    external_update db now cid body = ⟨Except.error e, db, []⟩ := by
  cases hf : db.contacts.find? (fun x => x.id == cid) with
  | none =>
    have he : ApiError.notFound = e := by
      simpa [external_update, hf] using h
    subst he
    simp [external_update, hf]
  | some c0 =>
    cases hg : db.contacts.any
        (fun x => x.email ==
          (applyFields c0 (body.filter (fun kv => fourFields.contains kv.1)) now).email
          && !(x.id == cid)) with
    | true =>
      simp only [external_update, hf, hg] at h
      injection h with h
      subst h
      simp only [external_update, hf, hg]
    | false =>
      simp only [external_update, hf, hg] at h
      exact Except.noConfusion h

end KnotContacts

namespace KnotContacts

/-! ### Claims C1 and C2 -/

/-- C1: for every successful mutation through any entry point
(`createContact`, full or partial `updateContact`, `external_update`),
exactly one new Version row exists afterward — the version table grows by
the single appended snapshot — and that snapshot's first name, last name,
email and phone equal the post-mutation Contact's field values
(`mkVersion _ c _ _` copies the saved contact `c` field for field, and
`c` is exactly the row written to the contact table). -/
theorem one_version_per_successful_mutation
    (db : DB) (now id cid : Nat) (body : List (String × String))
    (patch : Bool) (c : Contact) :
    ((createContact db now body).res = Except.ok c →
      (createContact db now body).db.versions =
        db.versions ++ [mkVersion db.nextVersionId c now "created"] ∧
      (createContact db now body).db.contacts = db.contacts ++ [c]) ∧
    ((updateContact db now id body patch).res = Except.ok c →
      (updateContact db now id body patch).db.versions =
        db.versions ++ [mkVersion db.nextVersionId c now "updated"] ∧
      (updateContact db now id body patch).db.contacts =
        saveRow db.contacts id c) ∧
    ((external_update db now cid body).res = Except.ok c →
      (external_update db now cid body).db.versions =
        db.versions ++ [mkVersion db.nextVersionId c now "external_update"] ∧
      (external_update db now cid body).db.contacts =
        saveRow db.contacts cid c) := by
  refine ⟨fun h => ?_, fun h => ?_, fun h => ?_⟩
  · rw [(createContact_ok_elim h).2]
    exact ⟨rfl, rfl⟩
  · obtain ⟨c0, -, -, -, he⟩ := updateContact_ok_elim h
    rw [he]
    exact ⟨rfl, rfl⟩
  · obtain ⟨c0, -, -, -, he⟩ := external_update_ok_elim h
    rw [he]
    exact ⟨rfl, rfl⟩

/-- C1 witness: the worked example create appends exactly the `"created"`
snapshot of the created contact. -/
theorem one_version_per_successful_mutation_witness :
    (createContact db0 0 adaBody).res = Except.ok ada1 ∧
    (createContact db0 0 adaBody).db.versions =
      db0.versions ++ [mkVersion db0.nextVersionId ada1 0 "created"] :=
  ⟨by rfl,
   (((one_version_per_successful_mutation db0 0 1 1 adaBody false ada1).1)
     (by rfl)).1⟩

/-- C2 counterexample: a successful external update's action trace is the
publish first and the commit second — `@transaction.atomic` decorates the
whole `external_update` view, so its group_send runs inside the
transaction, before the commit — refuting the claim that on every entry
point the publish happens strictly after the atomic
store-write-plus-version-append has committed. -/
theorem external_publish_before_commit_cex :
    (external_update dbAda 5 1 [("phone", "+1-555-2000")]).res =
      Except.ok ⟨1, "Ada", "Lovelace", "ada@example.com", "+1-555-2000", 0, 5⟩ ∧
    (external_update dbAda 5 1 [("phone", "+1-555-2000")]).trace =
      [Action.publish (ChangeEvent.updated
        ⟨1, "Ada", "Lovelace", "ada@example.com", "+1-555-2000", 0, 5⟩),
       Action.commit] :=
  ⟨by rfl, by rfl⟩

/-- C2 (amended): every mutation entry point publishes exactly one
ChangeEvent, and only when the persisted write succeeds; on failure the
database is unchanged and the trace is empty — the Broadcast Channel is
never notified. For create, update and delete the single publish happens
strictly after the commit of the atomic store-write-plus-version-append
(the `with transaction.atomic():` block closes before `_broadcast`);
`external_update` alone emits its single publish inside the transaction,
before the commit. -/
theorem broadcast_exactly_once_per_mutation
    (db : DB) (now id cid did : Nat) (body : List (String × String))
    (patch : Bool) :
    (∀ c, (createContact db now body).res = Except.ok c →
      (createContact db now body).trace =
        [Action.commit, Action.publish (ChangeEvent.created c)]) ∧
    (∀ e, (createContact db now body).res = Except.error e →
      (createContact db now body).db = db ∧
      (createContact db now body).trace = []) ∧
    (∀ c, (updateContact db now id body patch).res = Except.ok c →
      (updateContact db now id body patch).trace =
        [Action.commit, Action.publish (ChangeEvent.updated c)]) ∧
    (∀ e, (updateContact db now id body patch).res = Except.error e →
      (updateContact db now id body patch).db = db ∧
      (updateContact db now id body patch).trace = []) ∧
    (∀ r, (deleteContact db did).res = Except.ok r →
      (deleteContact db did).trace =
        [Action.commit, Action.publish (ChangeEvent.deleted did)]) ∧
    (∀ e, (deleteContact db did).res = Except.error e →
      (deleteContact db did).db = db ∧ (deleteContact db did).trace = []) ∧
    (∀ c, (external_update db now cid body).res = Except.ok c →
      (external_update db now cid body).trace =
        [Action.publish (ChangeEvent.updated c), Action.commit]) ∧
    (∀ e, (external_update db now cid body).res = Except.error e →
      (external_update db now cid body).db = db ∧
      (external_update db now cid body).trace = []) := by
  refine ⟨fun c h => ?_, fun e h => ?_, fun c h => ?_, fun e h => ?_,
    fun r h => ?_, fun e h => ?_, fun c h => ?_, fun e h => ?_⟩
  · rw [(createContact_ok_elim h).2]
  · rw [(createContact_error_elim h).2]
    exact ⟨rfl, rfl⟩
  · obtain ⟨c0, -, -, -, he⟩ := updateContact_ok_elim h
    rw [he]
  · rw [updateContact_error_elim h]
    exact ⟨rfl, rfl⟩
  · obtain ⟨c0, -, hr, he⟩ := deleteContact_ok_elim h
    rw [he]
  · rw [(deleteContact_error_elim h).2.2]
    exact ⟨rfl, rfl⟩
  · obtain ⟨c0, -, -, -, he⟩ := external_update_ok_elim h
    rw [he]
  · rw [external_update_error_elim h]
    exact ⟨rfl, rfl⟩

/-- C2 witness: the worked example create commits then publishes once,
and a rejected duplicate create leaves the database untouched with no
publish. -/
theorem broadcast_exactly_once_per_mutation_witness :
    (createContact db0 0 adaBody).trace =
      [Action.commit, Action.publish (ChangeEvent.created ada1)] ∧
    ((createContact dbPair 0 clashBody).db = dbPair ∧
     (createContact dbPair 0 clashBody).trace = []) :=
  ⟨(broadcast_exactly_once_per_mutation db0 0 1 1 1 adaBody false).1 ada1
     (by rfl),
   (broadcast_exactly_once_per_mutation dbPair 0 1 1 1 clashBody false).2.1
     (ApiError.validationError [("email", "Email must be unique.")]) (by rfl)⟩

end KnotContacts

namespace KnotContacts

/-! ### Claims C4, C7 and C9 -/

/-- C4: for every id naming no existing contact, `external_update` fails
with the not-found error (`Contact.DoesNotExist`), creates no contact,
appends no Version and publishes no broadcast event: the result is the
error with the database unchanged and an empty action trace. -/
theorem external_update_notfound (db : DB) (now cid : Nat)
    (body : List (String × String))
    (h : ∀ c ∈ db.contacts, c.id ≠ cid) :
    external_update db now cid body =
      ⟨Except.error ApiError.notFound, db, []⟩ := by
  have hf : db.contacts.find? (fun c => c.id == cid) = none := by
    rw [List.find?_eq_none]
    intro x hx
    simp [h x hx]
  simp [external_update, hf]

/-- C4 witness: the empty database has no contact 1, so the external
update fails not-found and touches nothing. -/
theorem external_update_notfound_witness :
    external_update db0 5 1 exBody =
      ⟨Except.error ApiError.notFound, db0, []⟩ :=
  external_update_notfound db0 5 1 exBody
    (by intro c hc; simp [db0] at hc)

/-- C7: creating a contact whose (otherwise field-valid) body reuses an
existing contact's email fails with the validation error naming the
email field, and persists nothing: the database is unchanged — no new
Contact, no new Version — and no event is published. -/
theorem duplicate_email_create_rejected (db : DB) (now : Nat)
    (body : List (String × String)) (c : Contact)
    (hc : c ∈ db.contacts)
    (he : lookupField body "email" = some c.email)
    (hv : fieldErrors body false = []) :
    createContact db now body =
      ⟨Except.error (ApiError.validationError
        [("email", "Email must be unique.")]), db, []⟩ := by
  have hne : c.email ≠ "" := email_nonblank_of_fieldErrors hv he
  have hs := serializerValidate_some_create he hne hc rfl
  have hr : runValidation db none body false =
      some (ApiError.validationError [("email", "Email must be unique.")]) := by
    simp [runValidation, hv, hs]
  simp [createContact, hr]

/-- C7 witness: re-creating with contact 1's email `a@x.co` is rejected
with the email-unique error and the two-contact database is unchanged. -/
theorem duplicate_email_create_rejected_witness :
    createContact dbPair 3 clashBody =
      ⟨Except.error (ApiError.validationError
        [("email", "Email must be unique.")]), dbPair, []⟩ :=
  duplicate_email_create_rejected dbPair 3 clashBody
    ⟨1, "A", "B", "a@x.co", "1", 0, 0⟩ (by decide) (by rfl) (by rfl)

/-- C9: deleting an existing contact succeeds and cascades: afterwards no
contact row and no Version row with that id remains, and the history
endpoint for the deleted id returns the empty sequence (never a stale
Version of the deleted contact). -/
theorem delete_cascades_versions (db : DB) (id : Nat) (c0 : Contact)
    (hf : db.contacts.find? (fun c => c.id == id) = some c0) :
    (deleteContact db id).res = Except.ok id ∧
    (∀ c ∈ (deleteContact db id).db.contacts, c.id ≠ id) ∧
    (∀ v ∈ (deleteContact db id).db.versions, v.contact ≠ id) ∧
    history (deleteContact db id).db id = [] := by
  have he : deleteContact db id =
      ⟨Except.ok id,
       ⟨db.contacts.filter (fun c => !(c.id == id)),
        db.versions.filter (fun v => !(v.contact == id)),
        db.nextContactId, db.nextVersionId⟩,
       [Action.commit, Action.publish (ChangeEvent.deleted id)]⟩ := by
    simp [deleteContact, hf]
  rw [he]
  refine ⟨rfl, ?_, ?_, ?_⟩
  · intro c hc
    rw [List.mem_filter] at hc
    simpa using hc.2
  · intro v hv
    rw [List.mem_filter] at hv
    simpa using hv.2
  · show List.insertionSort vOrder _ = []
    rw [List.filter_filter]
    have hnil : (db.versions.filter
        (fun v => (v.contact == id) && !(v.contact == id))) = [] := by
      rw [List.filter_eq_nil_iff]
      intro v hv
      simp
    rw [hnil]
    rfl

/-- C9 witness: deleting the worked example contact removes it and its
single version; its history comes back empty. -/
theorem delete_cascades_versions_witness :
    (deleteContact dbAda 1).res = Except.ok 1 ∧
    history (deleteContact dbAda 1).db 1 = [] :=
  ⟨(delete_cascades_versions dbAda 1 ada1 (by rfl)).1,
   (delete_cascades_versions dbAda 1 ada1 (by rfl)).2.2.2⟩

end KnotContacts

namespace KnotContacts

/-! ### Claim C6: history ordering -/

/-- C6 counterexample: `dbTie` is reached by one create (time 0) and two
partial updates at the same timestamp 5, so contact 1 has versions with
primary keys 1, 2, 3 and timestamps 0, 5, 5. The endpoint orders by
`-edited_at` alone (the explicit `order_by` replaces the model's
`["-edited_at", "-id"]` default), so the two time-5 rows come back in
table order 2 then 3 — not in insertion order descending as claimed:
the claimed ordering relation does not hold pairwise on the output. -/
theorem history_tie_order_cex :
    ¬ (history dbTie 1).Pairwise
        (fun a b => b.edited_at < a.edited_at ∨
          (a.edited_at = b.edited_at ∧ b.vid < a.vid)) := by
  decide

/-- C6 (amended): `history` returns exactly the contact's Versions (a
permutation of the rows with that contact id) sorted by timestamp
descending; because the endpoint sorts only by `-edited_at`, no
particular order among equal timestamps is promised. -/
theorem history_sorted_desc (db : DB) (pk : Nat) :
    (history db pk).Pairwise (fun a b => b.edited_at ≤ a.edited_at) ∧
    (history db pk).Perm (db.versions.filter (fun v => v.contact == pk)) :=
  ⟨List.sorted_insertionSort vOrder _, List.perm_insertionSort vOrder _⟩

/-! ### Claim C10: the external update's frame -/

theorem find?_key_filter (body : List (String × String)) (k : String)
    (hk : fourFields.contains k = true) :
    List.find? (fun kv => kv.1 == k)
        (body.filter (fun kv => fourFields.contains kv.1)) =
      List.find? (fun kv => kv.1 == k) body := by
  induction body with
  | nil => rfl
  | cons kv rest ih =>
    rw [List.filter_cons]
    by_cases hkeep : (fourFields.contains kv.1) = true
    · rw [if_pos hkeep]
      by_cases hkv : ((fun kv : String × String => kv.1 == k) kv) = true
      · rw [@List.find?_cons_of_pos _ (fun kv => kv.1 == k) kv
            (rest.filter (fun kv => fourFields.contains kv.1)) hkv,
          @List.find?_cons_of_pos _ (fun kv => kv.1 == k) kv rest hkv]
      · rw [@List.find?_cons_of_neg _ (fun kv => kv.1 == k) kv
            (rest.filter (fun kv => fourFields.contains kv.1)) hkv,
          @List.find?_cons_of_neg _ (fun kv => kv.1 == k) kv rest hkv, ih]
    · rw [if_neg hkeep, ih]
      have hkv : ¬ ((fun kv : String × String => kv.1 == k) kv = true) := by
        intro hx
        apply hkeep
        have hk1 : kv.1 = k := by simpa using hx
        rw [hk1]
        exact hk
      rw [@List.find?_cons_of_neg _ (fun kv => kv.1 == k) kv rest hkv]

theorem lookupField_filter (body : List (String × String)) (k : String)
    (hk : fourFields.contains k = true) :
    lookupField (body.filter (fun kv => fourFields.contains kv.1)) k =
      lookupField body k := by
  unfold lookupField
  rw [find?_key_filter body k hk]

theorem applyFields_filter (c0 : Contact) (body : List (String × String))
    (now : Nat) :
    applyFields c0 (body.filter (fun kv => fourFields.contains kv.1)) now =
      applyFields c0 body now := by
  unfold applyFields
  rw [lookupField_filter body "first_name" (by decide),
      lookupField_filter body "last_name" (by decide),
      lookupField_filter body "email" (by decide),
      lookupField_filter body "phone" (by decide)]

theorem filter_four_idem (body : List (String × String)) :
    (body.filter (fun kv => fourFields.contains kv.1)).filter
        (fun kv => fourFields.contains kv.1) =
      body.filter (fun kv => fourFields.contains kv.1) := by
  rw [List.filter_filter]
  exact List.filter_congr (fun x _ => Bool.and_self _)

/-- C10: a successful external update writes exactly the body keys among
{first_name, last_name, email, phone} onto the stored contact: a field
absent from the body keeps its prior value, a present field takes the
body's value, `updated_at` is refreshed to the request time while `id`
and `created_at` are untouched — and any other body key has no effect
(the request behaves identically once stripped to the four keys). -/
theorem external_update_frame (db : DB) (now cid : Nat)
    (body : List (String × String)) (c0 c : Contact)
    (hf : db.contacts.find? (fun x => x.id == cid) = some c0)
    (h : (external_update db now cid body).res = Except.ok c) :
    c.first_name = (lookupField body "first_name").getD c0.first_name ∧
    c.last_name = (lookupField body "last_name").getD c0.last_name ∧
    c.email = (lookupField body "email").getD c0.email ∧
    c.phone = (lookupField body "phone").getD c0.phone ∧
    c.updated_at = now ∧ c.created_at = c0.created_at ∧ c.id = c0.id ∧
    external_update db now cid
        (body.filter (fun kv => fourFields.contains kv.1)) =
      external_update db now cid body := by
  obtain ⟨c0', hf', hc, -, -⟩ := external_update_ok_elim h
  rw [hf] at hf'
  injection hf' with hf'
  subst hf'
  rw [applyFields_filter] at hc
  subst hc
  refine ⟨rfl, rfl, rfl, rfl, rfl, rfl, rfl, ?_⟩
  simp only [external_update, filter_four_idem]

/-- C10 witness: an external update of the worked example contact with a
phone value and a junk key rewrites only the phone and the
`updated_at` timestamp. -/
theorem external_update_frame_witness :
    adaExt.phone = (lookupField exBody "phone").getD ada1.phone ∧
    adaExt.email = (lookupField exBody "email").getD ada1.email ∧
    adaExt.created_at = ada1.created_at :=
  ⟨(external_update_frame dbAda 7 1 exBody ada1 adaExt (by rfl)
      (by rfl)).2.2.2.1,
   (external_update_frame dbAda 7 1 exBody ada1 adaExt (by rfl)
      (by rfl)).2.2.1,
   (external_update_frame dbAda 7 1 exBody ada1 adaExt (by rfl)
      (by rfl)).2.2.2.2.2.1⟩

end KnotContacts

namespace KnotContacts

/-! ### Email uniqueness machinery -/

theorem RC_symm : Symmetric RC :=
  fun _ _ h => ⟨h.1.symm, h.2.symm⟩

theorem emails_distinct_of_pairwise {l : List Contact}
    (hp : l.Pairwise RC) {a b : Contact}
    (ha : a ∈ l) (hb : b ∈ l) (hne : a.id ≠ b.id) : a.email ≠ b.email := by
  have hab : a ≠ b := fun h => hne (by rw [h])
  exact (List.Pairwise.forall RC_symm hp ha hb hab).2

theorem mem_saveRow {l : List Contact} {id : Nat} {c x' : Contact}
    (h : x' ∈ saveRow l id c) : x' = c ∨ x' ∈ l := by
  unfold saveRow at h
  rw [List.mem_map] at h
  obtain ⟨x, hx, hxe⟩ := h
  by_cases hxi : (x.id == id) = true
  · rw [if_pos hxi] at hxe
    exact Or.inl hxe.symm
  · rw [if_neg hxi] at hxe
    exact Or.inr (hxe ▸ hx)

theorem pairwise_saveRow {l : List Contact} {id : Nat} {c : Contact}
    (hp : l.Pairwise RC) (hcid : c.id = id)
    (hmail : ∀ x ∈ l, x.id ≠ id → x.email ≠ c.email) :
    (saveRow l id c).Pairwise RC := by
  unfold saveRow
  rw [List.pairwise_map]
  refine hp.imp_of_mem ?_
  intro a b ha hb hab
  by_cases hA : (a.id == id) = true
  · have ha' : a.id = id := by simpa using hA
    by_cases hB : (b.id == id) = true
    · have hb' : b.id = id := by simpa using hB
      exact absurd (ha'.trans hb'.symm) hab.1
    · rw [if_pos hA, if_neg hB]
      have hbid : b.id ≠ id := by simpa using hB
      refine ⟨?_, ?_⟩
      · rw [hcid]
        exact fun hh => hbid hh.symm
      · exact fun hh => (hmail b hb hbid) hh.symm
  · by_cases hB : (b.id == id) = true
    · rw [if_neg hA, if_pos hB]
      have haid : a.id ≠ id := by simpa using hA
      refine ⟨?_, ?_⟩
      · rw [hcid]
        exact haid
      · exact hmail a ha haid
    · rw [if_neg hA, if_neg hB]
      exact hab

theorem any_email_false {l : List Contact} {em : String} {cid : Nat}
    (h : ∀ x ∈ l, x.id ≠ cid → x.email ≠ em) :
    l.any (fun x => x.email == em && !(x.id == cid)) = false := by
  rw [List.any_eq_false]
  intro x hx hp
  rw [Bool.and_eq_true] at hp
  have h1 : x.email = em := by simpa using hp.1
  have h2 : x.id ≠ cid := by simpa using hp.2
  exact h x hx h2 h1

theorem noOther_of_any_false {l : List Contact} {em : String} {cid : Nat}
    (hg : l.any (fun x => x.email == em && !(x.id == cid)) = false) :
    ∀ x ∈ l, x.id ≠ cid → x.email ≠ em := by
  rw [List.any_eq_false] at hg
  intro x hx hxid hxe
  exact hg x hx (by simp [hxe, hxid])

theorem noOther_email_of_validation {db : DB} {id now : Nat}
    {body : List (String × String)} {patch : Bool} {c0 : Contact}
    (hp : db.contacts.Pairwise RC)
    (hc0 : c0 ∈ db.contacts) (hc0id : c0.id = id)
    (hval : runValidation db (some id) body patch = none) :
    ∀ x ∈ db.contacts, x.id ≠ id →
      x.email ≠ (applyFields c0 body now).email := by
  obtain ⟨hfe, hsv⟩ := runValidation_none_iff.mp hval
  intro x hx hxid
  cases hl : lookupField body "email" with
  | some em =>
    have hem : (applyFields c0 body now).email = em := by
      simp [applyFields, hl]
    rw [hem]
    intro hxe
    exact hxid (serializerValidate_none_update hsv hl
      (email_nonblank_of_fieldErrors hfe hl) x hx hxe)
  | none =>
    have hem : (applyFields c0 body now).email = c0.email := by
      simp [applyFields, hl]
    rw [hem]
    have hxc0 : x ≠ c0 := fun hh => hxid (hh ▸ hc0id)
    exact (List.Pairwise.forall RC_symm hp hx hc0 hxc0).2

end KnotContacts

namespace KnotContacts

/-! ### The invariant is preserved by every mutation -/

theorem inv_applyOp {db : DB} (op : Op) (h : Inv db) : Inv (applyOp db op) := by
  cases op with
  | create now body =>
    cases hv : runValidation db none body false with
    | some e =>
      simp only [applyOp, createContact, hv]
      exact h
    | none =>
      simp only [applyOp, createContact, hv]
      obtain ⟨hfe, hsv⟩ := runValidation_none_iff.mp hv
      obtain ⟨em, hl, hnb⟩ := email_of_fieldErrors_nil hfe
      have hno := serializerValidate_none_create hsv hl hnb
      constructor
      · rw [List.pairwise_append]
        refine ⟨h.1, by simp, ?_⟩
        intro a ha b hb
        rw [List.mem_singleton] at hb
        subst hb
        refine ⟨Nat.ne_of_lt (h.2 a ha), ?_⟩
        show a.email ≠ (lookupField body "email").getD ""
        rw [hl]
        exact hno a ha
      · intro x hx
        rw [List.mem_append] at hx
        cases hx with
        | inl hx => exact Nat.lt_succ_of_lt (h.2 x hx)
        | inr hx =>
          rw [List.mem_singleton] at hx
          subst hx
          exact Nat.lt_succ_self _
  | update now id body patch =>
    cases hf : db.contacts.find? (fun c => c.id == id) with
    | none =>
      simp only [applyOp, updateContact, hf]
      exact h
    | some c0 =>
      cases hv : runValidation db (some id) body patch with
      | some e =>
        simp only [applyOp, updateContact, hf, hv]
        exact h
      | none =>
        simp only [applyOp, updateContact, hf, hv]
        have hc0m := find?_id_mem hf
        have hc0id := find?_id_eq hf
        constructor
        · refine pairwise_saveRow h.1 ?_ ?_
          · show c0.id = id
            exact hc0id
          · exact noOther_email_of_validation h.1 hc0m hc0id hv
        · intro x hx
          rcases mem_saveRow hx with rfl | hx
          · show c0.id < db.nextContactId
            exact h.2 c0 hc0m
          · exact h.2 x hx
  | destroy id =>
    cases hf : db.contacts.find? (fun c => c.id == id) with
    | none =>
      simp only [applyOp, deleteContact, hf]
      exact h
    | some c0 =>
      simp only [applyOp, deleteContact, hf]
      constructor
      · exact List.Pairwise.sublist (List.filter_sublist _) h.1
      · intro x hx
        rw [List.mem_filter] at hx
        exact h.2 x hx.1
  | external now cid body =>
    cases hf : db.contacts.find? (fun c => c.id == cid) with
    | none =>
      simp only [applyOp, external_update, hf]
      exact h
    | some c0 =>
      cases hg : db.contacts.any
          (fun x => x.email ==
            (applyFields c0 (body.filter (fun kv => fourFields.contains kv.1))
              now).email && !(x.id == cid)) with
      | true =>
        simp only [applyOp, external_update, hf, hg]
        exact h
      | false =>
        simp only [applyOp, external_update, hf, hg]
        have hc0m := find?_id_mem hf
        have hc0id := find?_id_eq hf
        constructor
        · refine pairwise_saveRow h.1 ?_ ?_
          · show c0.id = cid
            exact hc0id
          · exact noOther_of_any_false hg
        · intro x hx
          rcases mem_saveRow hx with rfl | hx
          · show c0.id < db.nextContactId
            exact h.2 c0 hc0m
          · exact h.2 x hx

theorem inv_foldl (l : List Op) :
    ∀ db : DB, Inv db → Inv (l.foldl applyOp db) := by
  induction l with
  | nil => exact fun db h => h
  | cons op rest ih => exact fun db h => ih _ (inv_applyOp op h)

theorem inv_db0 : Inv db0 :=
  ⟨List.Pairwise.nil, by intro c hc; simp [db0] at hc⟩

theorem inv_runOps (ops : List Op) : Inv (runOps ops) :=
  inv_foldl ops db0 inv_db0

end KnotContacts

namespace KnotContacts

/-! ### Claim C5: reachable-state field invariants -/

/-- C5 counterexample: from the empty database, a serializer-validated
create followed by an external update whose body carries `phone = ""`
reaches a state with a live contact whose phone is empty —
`external_update` performs no field validation (`contact.save()` never
runs the serializer or model validators), so the mandatory-non-empty
part of the claim fails on a reachable state. -/
theorem reachable_blank_field_cex :
    ∃ c ∈ (runOps [Op.create 0 adaBody,
                   Op.external 1 1 [("phone", "")]]).contacts,
      c.phone = "" := by
  decide

/-- C5 (amended): in every state reachable through the mutation
operations, no two live contacts share an email value (the serializer
check on the validated paths and the unique index on the unvalidated
external path together preserve it); non-emptiness and well-formedness
of fields, however, hold only for serializer-validated writes — the
external update path bypasses field validation, so live contacts may
carry empty or malformed field values. -/
theorem emails_unique_in_reachable_states (ops : List Op) :
    ((runOps ops).contacts).Pairwise (fun a b => a.email ≠ b.email) :=
  ((inv_runOps ops).1).imp (fun h => h.2)

end KnotContacts

namespace KnotContacts

/-! ### Claim C3: the external gateway versus updateContact -/

/-- C3 counterexample: on the same state, id and fields, the two entry
points give different outcomes — not merely a different reason tag: a
body with `phone = ""` is rejected by `updateContact` (DRF field
validation: blank field) but applied by `external_update`, which runs no
serializer and saves the blank phone. -/
theorem external_not_identical_cex :
    (updateContact dbAda 1 1 [("phone", "")] true).res =
      Except.error (ApiError.validationError
        [("phone", "This field may not be blank.")]) ∧
    (external_update dbAda 1 1 [("phone", "")]).res =
      Except.ok ⟨1, "Ada", "Lovelace", "ada@example.com", "", 0, 1⟩ :=
  ⟨by rfl, by rfl⟩

/-- C3 (amended): `external_update` funnels through the same atomic
store-write-plus-version-append as a partial `updateContact`, but skips
serializer validation. Whenever the body would pass the serializer (and
the database is well formed), the two agree in response and resulting
contact table, their appended Versions differ only in the reason tag
(`"external_update"` versus `"updated"`), and each publishes the same
single `contact.updated` event — though not at the same point:
`updateContact` publishes after its transaction commits, while
`external_update` publishes inside its transaction, before the commit.
On bodies the serializer rejects the outcomes differ. -/
theorem external_matches_update_modulo_reason (db : DB) (now id : Nat)
    (body : List (String × String)) (c0 : Contact)
    (hInv : Inv db)
    (hf : db.contacts.find? (fun c => c.id == id) = some c0)
    (hval : runValidation db (some id) body true = none) :
    (external_update db now id body).res =
      (updateContact db now id body true).res ∧
    (updateContact db now id body true).trace =
      [Action.commit,
       Action.publish (ChangeEvent.updated (applyFields c0 body now))] ∧
    (external_update db now id body).trace =
      [Action.publish (ChangeEvent.updated (applyFields c0 body now)),
       Action.commit] ∧
    (external_update db now id body).db.contacts =
      (updateContact db now id body true).db.contacts ∧
    (updateContact db now id body true).db.versions =
      db.versions ++
        [mkVersion db.nextVersionId (applyFields c0 body now) now "updated"] ∧
    (external_update db now id body).db.versions =
      db.versions ++
        [mkVersion db.nextVersionId (applyFields c0 body now) now
          "external_update"] := by
  have hg : db.contacts.any
      (fun x => x.email ==
        (applyFields c0 (body.filter (fun kv => fourFields.contains kv.1))
          now).email && !(x.id == id)) = false := by
    rw [applyFields_filter]
    exact any_email_false (noOther_email_of_validation hInv.1
      (find?_id_mem hf) (find?_id_eq hf) hval)
  simp only [external_update, updateContact, hf, hval, hg]
  simp only [applyFields_filter]
  exact ⟨trivial, trivial, trivial, trivial, trivial, trivial⟩

/-- C3 witness: a validated phone change through the gateway and through
the primary update agree in response on the worked example state. -/
theorem external_matches_update_modulo_reason_witness :
    Inv dbAda ∧
    (external_update dbAda 5 1 [("phone", "+1-555-2000")]).res =
      (updateContact dbAda 5 1 [("phone", "+1-555-2000")] true).res :=
  ⟨by decide,
   (external_matches_update_modulo_reason dbAda 5 1
     [("phone", "+1-555-2000")] ada1 (by decide) (by rfl) (by rfl)).1⟩

end KnotContacts

namespace KnotContacts

/-! ### Claim C8: the duplicate-email condition on update -/

theorem serializerValidate_some_update_elim {db : DB}
    {attrs : List (String × String)} {pk : Nat} {d : List (String × String)}
    (h : serializerValidate db (some pk) attrs = some d) :
    d = [("email", "Email must be unique.")] ∧
    ∃ e, lookupField attrs "email" = some e ∧ e ≠ "" ∧
      ∃ x ∈ db.contacts, x.email = e ∧ x.id ≠ pk := by
  cases hl : lookupField attrs "email" with
  | none => simp [serializerValidate, hl] at h
  | some e =>
    by_cases he : e = ""
    · simp [serializerValidate, hl, he] at h
    · simp only [serializerValidate, hl, if_neg he] at h
      cases hq : ((db.contacts.filter (fun c => c.email == e)).filter
          (fun c => !(c.id == pk))).isEmpty with
      | true =>
        rw [if_pos hq] at h
        cases h
      | false =>
        rw [if_neg (by rw [hq]; exact Bool.false_ne_true)] at h
        injection h with h
        have hne : ((db.contacts.filter (fun c => c.email == e)).filter
            (fun c => !(c.id == pk))) ≠ [] := List.isEmpty_eq_false.mp hq
        obtain ⟨x, hx⟩ := List.exists_mem_of_ne_nil _ hne
        rw [List.mem_filter] at hx
        obtain ⟨hx1, hx2⟩ := hx
        rw [List.mem_filter] at hx1
        exact ⟨h.symm, e, rfl, he, x, hx1.1,
          by simpa using hx1.2, by simpa using hx2⟩

/-- C8: on a well-formed database, for an existing contact and a request
body whose fields pass DRF field-level validation, `updateContact`
(full or partial) fails with the duplicate-email validation error if and
only if the new email — the supplied one, or the contact's own when the
body omits the key — equals the email of some contact other than the one
being updated; in particular an update that keeps the contact's own email
succeeds, returning the merged contact. -/
theorem update_duplicate_key_iff (db : DB) (now id : Nat)
    (body : List (String × String)) (patch : Bool) (c0 : Contact)
    (hInv : Inv db)
    (hf : db.contacts.find? (fun c => c.id == id) = some c0)
    (hfe : fieldErrors body patch = []) :
    ((updateContact db now id body patch).res =
        Except.error (ApiError.validationError
          [("email", "Email must be unique.")]) ↔
      ∃ x ∈ db.contacts, x.id ≠ id ∧
        x.email = (lookupField body "email").getD c0.email) ∧
    (lookupField body "email" = some c0.email →
      (updateContact db now id body patch).res =
        Except.ok (applyFields c0 body now)) := by
  constructor
  · constructor
    · intro h
      cases hv : runValidation db (some id) body patch with
      | none =>
        simp only [updateContact, hf, hv] at h
        exact Except.noConfusion h
      | some e =>
        simp only [updateContact, hf, hv] at h
        injection h with h
        subst h
        have hs : serializerValidate db (some id) body =
            some [("email", "Email must be unique.")] := by
          simp only [runValidation, hfe] at hv
          cases hs' : serializerValidate db (some id) body with
          | none =>
            rw [hs'] at hv
            cases hv
          | some d =>
            rw [hs'] at hv
            simp only [Option.map_some'] at hv
            injection hv with hv
            injection hv with hv
            rw [hv]
        obtain ⟨-, e', hl, hne, x, hx, hxe, hxid⟩ :=
          serializerValidate_some_update_elim hs
        refine ⟨x, hx, hxid, ?_⟩
        rw [hl]
        simpa using hxe
    · rintro ⟨x, hx, hxid, hxe⟩
      cases hl : lookupField body "email" with
      | some em =>
        rw [hl] at hxe
        simp only [Option.getD_some] at hxe
        have hne := email_nonblank_of_fieldErrors hfe hl
        have hs := serializerValidate_some_update hl hne hx hxe hxid
        have hv : runValidation db (some id) body patch =
            some (ApiError.validationError
              [("email", "Email must be unique.")]) := by
          simp [runValidation, hfe, hs]
        simp [updateContact, hf, hv]
      | none =>
        rw [hl] at hxe
        simp only [Option.getD_none] at hxe
        have hxid' : x.id ≠ c0.id := by
          rw [find?_id_eq hf]
          exact hxid
        exact absurd hxe
          (emails_distinct_of_pairwise hInv.1 hx (find?_id_mem hf) hxid')
  · intro hl
    have hs : serializerValidate db (some id) body = none := by
      by_cases he : c0.email = ""
      · simp [serializerValidate, hl, he]
      · simp only [serializerValidate, hl, if_neg he]
        have hq : ((db.contacts.filter (fun c => c.email == c0.email)).filter
            (fun c => !(c.id == id))) = [] := by
          rw [List.filter_eq_nil_iff]
          intro x hx
          rw [List.mem_filter] at hx
          have hxe : x.email = c0.email := by simpa using hx.2
          have hxi : x.id = c0.id := by
            by_contra hne
            exact emails_distinct_of_pairwise hInv.1 hx.1
              (find?_id_mem hf) hne hxe
          simp [hxi, find?_id_eq hf]
        simp only [hq]
        simp
    have hv : runValidation db (some id) body patch = none := by
      simp [runValidation, hfe, hs]
    simp only [updateContact, hf, hv]

/-- C8 witness: on the two-contact database, a full update of contact 2
to contact 1's email fails with the duplicate error, and one that keeps
its own email succeeds. -/
theorem update_duplicate_key_iff_witness :
    Inv dbPair ∧
    (updateContact dbPair 9 2 clashBody false).res =
      Except.error (ApiError.validationError
        [("email", "Email must be unique.")]) :=
  ⟨by decide,
   (update_duplicate_key_iff dbPair 9 2 clashBody false
       ⟨2, "C", "D", "b@x.co", "2", 0, 0⟩ (by decide) (by rfl)
       (by rfl)).1.mpr
     ⟨⟨1, "A", "B", "a@x.co", "1", 0, 0⟩, by decide, by decide, by rfl⟩⟩

end KnotContacts
